import Mathlib

/-!
Shallow embedding of `code2llm.py` (dmllr/code2llm).

The program collects code files from input paths, filters them with
`.gitignore`-style rules and a six-tier user exclusion engine, and renders a
single text artifact.  This file embeds the path-handling core of the script
(`gitignore_matches`, `Excluder`, `collect_files`, `format_output`) over an
inductive filesystem model, and proves properties about the embedding.

Modelling conventions:
* the host is POSIX: `os.sep = "/"`, `fnmatch` does not case-fold, `str(Path)`
  renders with forward slashes;
* absolute paths are segment lists (`["repo", "sub"]` renders to
  `"/repo/sub"`); `Path(...).resolve()` / `os.path.abspath` are modelled as
  the identity on the already-absolute inputs fed to the embedding;
* Python string operations are re-implemented over `List Char` so that every
  definition evaluates inside the kernel.
-/

namespace Code2LLM

/-- Python `hay.startswith(needle)` on character lists: `listPrefB needle hay`. -/
def listPrefB : List Char → List Char → Bool
  | [], _ => true
  | _ :: _, [] => false
  | a :: as, b :: bs => a == b && listPrefB as bs

/-- Python `needle in hay` (substring containment) on character lists. -/
def listInfB : List Char → List Char → Bool
  | n, [] => listPrefB n []
  | n, c :: cs => listPrefB n (c :: cs) || listInfB n cs

/-- Python `s.startswith(pre)`. -/
def startsWithB (s pre : String) : Bool := listPrefB pre.data s.data

/-- Python `s.endswith(suf)`. -/
def endsWithB (s suf : String) : Bool := listPrefB suf.data.reverse s.data.reverse

/-- Python `needle in hay` on strings. -/
def substrB (needle hay : String) : Bool := listInfB needle.data hay.data

/-- Helper for `splitChar`: accumulates the current piece (reversed). -/
def splitCharAux (sep : Char) : List Char → List Char → List String
  | acc, [] => [String.mk acc.reverse]
  | acc, x :: xs =>
    if x == sep then String.mk acc.reverse :: splitCharAux sep [] xs
    else splitCharAux sep (x :: acc) xs

/-- Python `s.split(sep)` for a one-character separator (empty pieces kept). -/
def splitChar (sep : Char) (s : String) : List String := splitCharAux sep [] s.data

/-- Python `str.strip()` whitespace set (the ASCII part actually exercised). -/
def isSpaceB (c : Char) : Bool :=
  c == ' ' || c == '\t' || c == '\n' || c == '\r' || c == '\x0b' || c == '\x0c'

/-- Python `s.strip()`. -/
def trimB (s : String) : String :=
  String.mk (((s.data.dropWhile isSpaceB).reverse.dropWhile isSpaceB).reverse)

/-- `sep.join(pieces)`. -/
def joinSep (sep : String) : List String → String
  | [] => ""
  | [x] => x
  | x :: xs => x ++ sep ++ joinSep sep xs

/-- Python `os.path.basename` for forward-slash paths. -/
def basenameStr (s : String) : String := ((splitChar '/' s).getLastD "")

/-- `str(Path)` of an absolute segment list (`render ["a","b"] = "/a/b"`). -/
def render (segs : List String) : String :=
  if segs = [] then "/" else "/" ++ joinSep "/" segs

/-- `Path(s).parts` (without the root) for an absolute rendered string. -/
def parseAbs (s : String) : List String := (splitChar '/' s).filter (fun t => t ≠ "")

/-- `Path(p).relative_to(base).as_posix()` for `base` a prefix of `p`
(Python returns `"."` when the two coincide).  Outside the prefix case —
where CPython would raise `ValueError` — the model just drops
`base.length` segments; the program never reaches that case. -/
def relPosix (base p : List String) : String :=
  let rest := p.drop base.length
  if rest = [] then "." else joinSep "/" rest

/-! ### fnmatch

`fnmatch.fnmatch(name, pat)` is modelled by a direct glob matcher over
character lists: `*` matches any run, `?` any single character, `[...]` a
character class with `!` negation and `-` ranges, an unterminated `[` is a
literal.  This mirrors `fnmatch.translate` + `re.fullmatch` on the POSIX
(case-sensitive) host for the patterns the tool meets; degenerate class
edge cases (e.g. reversed ranges, which make CPython raise) simply fail to
match here. -/

/-- Does `c` fall in the (already negation-stripped) class body? -/
def classMatchesAux (c : Char) : List Char → Bool
  | a :: '-' :: b :: rest => (decide (a ≤ c) && decide (c ≤ b)) || classMatchesAux c rest
  | a :: rest => (a == c) || classMatchesAux c rest
  | [] => false

/-- Scan for the closing `]` of a character class, returning (body, rest). -/
def findClassEnd : List Char → List Char → Option (List Char × List Char)
  | _, [] => none
  | acc, ']' :: rest => some (acc.reverse, rest)
  | acc, x :: rest => findClassEnd (x :: acc) rest

/-- Split a class body honouring Python's rule that a `]` directly after the
opening `[` (or after `[!`) is a literal member of the class. -/
def splitClassBody : List Char → Option (List Char × List Char)
  | [] => none
  | ']' :: t => (findClassEnd [] t).map (fun br => (']' :: br.1, br.2))
  | other => findClassEnd [] other

/-- Split the input right after a `[` into (negated?, body, rest-after-`]`). -/
def splitClass (cs : List Char) : Option (Bool × List Char × List Char) :=
  match cs with
  | '!' :: t => (splitClassBody t).map (fun br => (true, br.1, br.2))
  | _ => (splitClassBody cs).map (fun br => (false, br.1, br.2))

/-- Core glob matcher, structurally recursive on a fuel argument so that it
evaluates inside the kernel.  Every recursive call strictly decreases
`pattern.length + name.length`, so `globMatch` below supplies fuel that can
never run out and the `fuel = 0` branch is unreachable. -/
def globFuel : Nat → List Char → List Char → Bool
  | 0, _, _ => false
  | _ + 1, [], s => s.isEmpty
  | fuel + 1, '*' :: ps, [] => globFuel fuel ps []
  | fuel + 1, '*' :: ps, c :: cs =>
    globFuel fuel ps (c :: cs) || globFuel fuel ('*' :: ps) cs
  | _ + 1, '?' :: _, [] => false
  | fuel + 1, '?' :: ps, _ :: cs => globFuel fuel ps cs
  | fuel + 1, '[' :: ps, s =>
    match splitClass ps with
    | none =>
      match s with
      | '[' :: cs => globFuel fuel ps cs
      | _ => false
    | some (neg, body, rest) =>
      match s with
      | [] => false
      | c :: cs => (classMatchesAux c body != neg) && globFuel fuel rest cs
  | _ + 1, _ :: _, [] => false
  | fuel + 1, p :: ps, c :: cs => p == c && globFuel fuel ps cs

/-- `globMatch pattern name`: does the glob `pattern` match all of `name`? -/
def globMatch (pattern name : List Char) : Bool :=
  globFuel (pattern.length + name.length + 1) pattern name

/-- Python `fnmatch.fnmatch(name, pat)` on the POSIX host. -/
def fnmatchB (name pat : String) : Bool := globMatch pat.data name.data

/-! ### gitignore logic -/

/-- `gitignore_matches(rel_path, patterns)` from the source: a pattern is
skipped when it starts with `!`; a pattern ending in `/` matches when it is a
prefix of `rel_path + "/"`; otherwise `fnmatch` is tried against the full
relative path and against its basename. -/
def gitignore_matches (rel_path : String) : List String → Bool
  | [] => false
  | pattern :: rest =>
    if startsWithB pattern "!" then gitignore_matches rel_path rest
    else if endsWithB pattern "/" && startsWithB (rel_path ++ "/") pattern then true
    else if fnmatchB rel_path pattern || fnmatchB (basenameStr rel_path) pattern then true
    else gitignore_matches rel_path rest

example : gitignore_matches "sub/b.py" ["sub/"] = true := by decide
example : gitignore_matches "./sub" ["sub/"] = false := by decide
example : gitignore_matches "a.py" ["*.py"] = true := by decide
example : gitignore_matches "x/a.py" ["*.py"] = true := by decide
example : gitignore_matches "a.py" ["!a.py"] = false := by decide

/-! ### Path normalization (`os.path.normpath`, `os.path.relpath`) -/

/-- `os.path.normpath` component folding: pushes components onto `acc`,
popping on `..` (leading `..` survives for relative paths, vanishes at the
root of absolute ones). -/
def normParts (isAbs : Bool) : List String → List String → List String
  | acc, [] => acc.reverse
  | acc, seg :: rest =>
    if seg = ".." then
      match acc with
      | top :: acc' =>
        if top = ".." then normParts isAbs (".." :: top :: acc') rest
        else normParts isAbs acc' rest
      | [] => if isAbs then normParts isAbs [] rest else normParts isAbs [".."] rest
    else normParts isAbs (seg :: acc) rest

/-- Python `os.path.normpath` for forward-slash paths (the `//`-root corner
of POSIX normpath is not modelled; no input here exercises it). -/
def normpath (path : String) : String :=
  let isAbs := startsWithB path "/"
  let comps := (splitChar '/' path).filter (fun t => t ≠ "" && t ≠ ".")
  let parts := normParts isAbs [] comps
  if isAbs then render parts
  else if parts = [] then "." else joinSep "/" parts

example : normpath "/a/b" = "/a/b" := by decide
example : normpath "/a//b/./c/.." = "/a/b" := by decide
example : normpath "a/../../b" = "../b" := by decide
example : normpath "" = "." := by decide

/-- Length of the common prefix of two component lists. -/
def commonLen : List String → List String → Nat
  | a :: as, b :: bs => if a = b then commonLen as bs + 1 else 0
  | _, _ => 0

/-- Python `os.path.relpath(path, start)` for absolute inputs (resolution of
relative inputs against the process working directory is not modelled; the
program only passes absolute paths here). -/
def relpathStr (path start : String) : String :=
  let p := (splitChar '/' (normpath path)).filter (fun t => t ≠ "")
  let s := (splitChar '/' (normpath start)).filter (fun t => t ≠ "")
  let k := commonLen p s
  let parts := List.replicate (s.length - k) ".." ++ p.drop k
  if parts = [] then "." else joinSep "/" parts

example : relpathStr "/a/b/c" "/a" = "b/c" := by decide
example : relpathStr "/a" "/a" = "." := by decide
example : relpathStr "/x/y" "/a/b" = "../../x/y" := by decide

/-! ### The exclusion engine (`Excluder`)

`re` is external to the repository: a compiled regular expression is
modelled as an opaque total search function `String → Bool`, and
`re.compile` as a parameter `compile : String → Option (String → Bool)`
(`none` models `re.compile` raising `re.error` on a malformed pattern, which
`Excluder.__init__` does not catch).  A *compiled* CPython pattern's
`search` never raises `re.error` — `re.error` is a parse-time error — so the
`except re.error` guards inside `is_excluded` / `is_forced_excluded`
(source lines 196–201 and 215–220) are unreachable dead code and the
searches are modelled total. -/

structure Excluder where
  base_paths : List (List String)
  regexes : List (String → Bool)
  substrings : List String
  forced_regexes : List (String → Bool)
  forced_substrings : List String
  forced_exclude : List String
  exact_prefixes : List String

/-- Resolution of exact/forced path rules from `Excluder.__init__`: an
absolute pattern is normalized as-is, a relative one is joined to every base
path (`os.path.normpath(str(b / p))`).  The source stores the results in a
`set`; membership is all that is ever used of it, so a list models it. -/
def resolveRules (base_paths : List (List String)) (ps : List String) : List String :=
  ps.flatMap (fun p =>
    if startsWithB p "/" then [normpath p]
    else base_paths.map (fun b => normpath (render b ++ "/" ++ p)))

/-- The list-comprehension `[re.compile(r) for r in rs]`: the first pattern
that fails to compile raises, abandoning the whole construction. -/
def compileAll (compile : String → Option (String → Bool)) :
    List String → Except String (List (String → Bool))
  | [] => .ok []
  | r :: rest =>
    match compile r with
    | none => .error r
    | some f =>
      match compileAll compile rest with
      | .error e => .error e
      | .ok fs => .ok (f :: fs)

/-- `Excluder.__init__`.  Soft regexes are compiled before forced regexes,
exactly as in the source; a compile failure anywhere aborts construction. -/
def mkExcluder (compile : String → Option (String → Bool))
    (base_paths : List (List String))
    (exact_paths regexes substrings forced_exclude forced_regexes forced_substrings :
      List String) : Except String Excluder :=
  match compileAll compile regexes with
  | .error e => .error e
  | .ok rs =>
    match compileAll compile forced_regexes with
    | .error e => .error e
    | .ok frs =>
      .ok { base_paths := base_paths
            regexes := rs
            substrings := substrings
            forced_regexes := frs
            forced_substrings := forced_substrings
            forced_exclude := resolveRules base_paths forced_exclude
            exact_prefixes := resolveRules base_paths exact_paths }

/-- `Excluder.is_excluded(path, base_path)`: exact-prefix tier, then regex
tier, then substring tier (against the normalized path, its base-relative
form, and its basename). -/
def Excluder.is_excluded (ex : Excluder) (path : String) (base_path : Option (List String)) :
    Bool :=
  let norm := normpath path
  if ex.exact_prefixes.any (fun pref => norm == pref || startsWithB norm (pref ++ "/")) then
    true
  else if ex.regexes.any (fun rx => rx norm) then true
  else
    let rel := base_path.elim norm (fun b => relpathStr norm (render b))
    let bn := basenameStr norm
    ex.substrings.any (fun sub => substrB sub norm || substrB sub rel || substrB sub bn)

/-- `Excluder.is_forced_excluded(path)`: forced exact-prefix tier, forced
regex tier, then forced substring tier (normalized path only). -/
def Excluder.is_forced_excluded (ex : Excluder) (path : String) : Bool :=
  let norm := normpath path
  if ex.forced_exclude.any (fun fe => norm == fe || startsWithB norm (fe ++ "/")) then true
  else if ex.forced_regexes.any (fun rx => rx norm) then true
  else ex.forced_substrings.any (fun sub => substrB sub norm)

/-- Count of unmatched `(` while scanning (simplistic paren balance). -/
def parensBalancedAux : Nat → List Char → Bool
  | depth, [] => depth == 0
  | depth, '(' :: rest => parensBalancedAux (depth + 1) rest
  | depth, ')' :: rest =>
    match depth with
    | 0 => false
    | d + 1 => parensBalancedAux d rest
  | depth, _ :: rest => parensBalancedAux depth rest

def parensBalanced (p : String) : Bool := parensBalancedAux 0 p.data

/-- Modelled behavior of CPython `re.compile` on the fragment exercised by
the witnesses below: a pattern with unbalanced parentheses (such as `"("`)
raises `re.error` (= `none`), and a metacharacter-free pattern compiles to
a search that reports plain substring occurrence, which is exactly
`re.search`'s behavior on literal patterns. -/
def pyCompile (p : String) : Option (String → Bool) :=
  if parensBalanced p then some (fun s => substrB p s) else none

example : (pyCompile "(").isSome = false := by decide
example : (mkExcluder pyCompile [] [] ["("] [] [] [] []).isOk = false := by rfl
example : (mkExcluder pyCompile [["a"]] ["x"] [] [] [] [] []).isOk = true := by rfl

/-! ### Filesystem model

A directory tree: a file carries the outcome of reading it as text
(`Except.error` models `open`/decoding raising), a directory carries named
children.  Paths into the tree are absolute segment lists. -/

inductive Node where
  | file (text : Except String String)
  | dir (entries : List (String × Node))

mutual

/-- Executable size of a tree, used as walk fuel. -/
def nodeSize : Node → Nat
  | .file _ => 1
  | .dir entries => 1 + entriesSize entries

/-- Executable size of an entry list. -/
def entriesSize : List (String × Node) → Nat
  | [] => 0
  | e :: rest => 1 + nodeSize e.2 + entriesSize rest

end

/-- Walk a segment path down the tree (structural on the path). -/
def lookupNode : Node → List String → Option Node
  | n, [] => some n
  | n, s :: rest =>
    match n with
    | .file _ => none
    | .dir entries =>
      match entries.lookup s with
      | some child => lookupNode child rest
      | none => none

/-- `Path(p).is_file()`. -/
def isFileB (fs : Node) (p : List String) : Bool :=
  match lookupNode fs p with
  | some (.file _) => true
  | _ => false

/-- `Path(p).is_dir()`. -/
def isDirB (fs : Node) (p : List String) : Bool :=
  match lookupNode fs p with
  | some (.dir _) => true
  | _ => false

/-- `[current] + list(current.parents)`: the path and all its ancestors down
to the root `[]` (= `/`), i.e. the prefixes of `p` by decreasing length. -/
def ancestors (p : List String) : List (List String) :=
  (List.range (p.length + 1)).reverse.map (fun k => p.take k)

example : ancestors ["a", "b"] = [["a", "b"], ["a"], []] := by decide

/-- `find_git_root`: start from the containing directory for a file input,
then return the first ancestor (inclusive) containing a `.git` directory. -/
def find_git_root (fs : Node) (path : List String) : Option (List String) :=
  let current := if isFileB fs path then path.dropLast else path
  (ancestors current).find? (fun a => isDirB fs (a ++ [".git"]))

/-- The line filter of `parse_gitignore`: strip, drop blanks and `#` lines. -/
def parseLines (s : String) : List String :=
  ((splitChar '\n' s).map trimB).filter (fun l => l ≠ "" && !(startsWithB l "#"))

/-- `parse_gitignore(base / ".gitignore")`: a missing file yields `[]`, and
an `OSError` while opening/reading (including the path being a directory)
is swallowed, also yielding `[]`. -/
def parse_gitignore (fs : Node) (base : List String) : List String :=
  match lookupNode fs (base ++ [".gitignore"]) with
  | some (.file (.ok s)) => parseLines s
  | _ => []

/-- `open(fp, 'r', errors='replace').read()` at a rendered absolute path. -/
def readText (fs : Node) (path : String) : Except String String :=
  match lookupNode fs (parseAbs path) with
  | some (.file t) => t
  | some (.dir _) => .error "IsADirectoryError"
  | none => .error "FileNotFoundError"

/-! ### File collection (`collect_files`) -/

def isFileEntry : (String × Node) → Bool
  | (_, .file _) => true
  | (_, .dir _) => false

def isDirEntry : (String × Node) → Bool
  | (_, .file _) => false
  | (_, .dir _) => true

/-- The directory-pruning test of the walk (source lines 252–268): gitignore
against the walk-relative name, then forced exclusion, then soft exclusion,
each against `str(dir_path)`.  `rel_root` is `"."` (truthy) when the walk
root equals the base, so the `if rel_root else d` branch keeps the
concatenated form. -/
def pruneCond (ex : Excluder) (patterns : List String) (base p : List String) (d : String) :
    Bool :=
  let rel_root := relPosix base p
  let dir_rel := if rel_root = "" then d else rel_root ++ "/" ++ d
  gitignore_matches dir_rel patterns ||
    ex.is_forced_excluded (render (p ++ [d])) ||
    ex.is_excluded (render (p ++ [d])) (some base)

/-- The per-file test of the walk (source lines 272–282): skip when
gitignore matches the base-relative path, or when the rendered path contains
a `/.git/` segment; otherwise keep the segment path. -/
def keepFile (patterns : List String) (base p : List String) (name : String) :
    Option (List String) :=
  let fpath := p ++ [name]
  let rel := relPosix base fpath
  if gitignore_matches rel patterns then none
  else if substrB "/.git/" (render fpath) then none
  else some fpath

/-- `os.walk` with in-place `dirs` filtering: emit the kept files of the
current directory, then recurse into the non-pruned child directories.
Structural recursion on a fuel argument keeps the function
kernel-computable; each recursion step descends into a strict subtree, so
the `nodeSize` fuel supplied by `walkFiles` never reaches `0` ahead of a
node.
Collected paths stay as segment lists; `collectInput` renders them, which is
where the source builds `(str(file_path), base_path)`. -/
def walkFuel (ex : Excluder) (patterns : List String) (base : List String) :
    Nat → List String → Node → List (List String)
  | 0, _, _ => []
  | _ + 1, _, .file _ => []
  | fuel + 1, p, .dir entries =>
    let subfiles := entries.filter isFileEntry
    let subdirs := entries.filter isDirEntry
    let kept := subfiles.filterMap (fun e => keepFile patterns base p e.1)
    let filtered := subdirs.filter (fun e => !(pruneCond ex patterns base p e.1))
    kept ++ filtered.flatMap (fun e => walkFuel ex patterns base fuel (p ++ [e.1]) e.2)

/-- The walk over one directory tree. -/
def walkFiles (ex : Excluder) (patterns : List String) (base : List String)
    (p : List String) (node : Node) : List (List String) :=
  walkFuel ex patterns base (nodeSize node) p node

/-- The git root of an input, and failing that its parent (file input) or
itself (directory input): the `base_path` of source line 236. -/
def inputBase (fs : Node) (input : List String) : List String :=
  (find_git_root fs input).getD (if isFileB fs input then input.dropLast else input)

/-- Gitignore patterns are loaded only when a git root was found
(source line 238). -/
def inputPatterns (fs : Node) (input : List String) : List String :=
  if (find_git_root fs input).isSome then parse_gitignore fs (inputBase fs input) else []

/-- One iteration of the `for input_path_str in input_paths` loop of
`collect_files`: a file input is kept unless gitignore matches it; a
directory input is walked; anything else contributes nothing (as does
`os.walk` on a non-directory). -/
def collectInput (fs : Node) (ex : Excluder) (input : List String) :
    List (String × List String) :=
  let base := inputBase fs input
  let patterns := inputPatterns fs input
  if isFileB fs input then
    if gitignore_matches (relPosix base input) patterns then []
    else [(render input, base)]
  else
    match lookupNode fs input with
    | some n => (walkFiles ex patterns base input n).map (fun segs => (render segs, base))
    | none => []

/-- Python string `<` / `≤` is code-point lexicographic; this is `≤`. -/
def listCharLe : List Char → List Char → Bool
  | [], _ => true
  | _ :: _, [] => false
  | a :: as, b :: bs => if a < b then true else if a == b then listCharLe as bs else false

def pathLe (a b : String) : Bool := listCharLe a.data b.data

/-- Order used by `sorted(..., key=lambda x: x[0])`. -/
def entryLe (a b : String × List String) : Prop := pathLe a.1 b.1 = true

instance : DecidableRel entryLe := fun a b => by
  unfold entryLe
  infer_instance

/-- `sorted(list(set(all_files)), key=lambda x: x[0])` over all inputs.
`set` keeps one copy of each *(path, base) pair* and iterates in an
unspecified order; `List.dedup` models the set, and a stable insertion sort
models `sorted` (ties between distinct pairs with equal paths are
order-unspecified in CPython as well). -/
def collect_files (fs : Node) (ex : Excluder) (inputs : List (List String)) :
    List (String × List String) :=
  List.insertionSort entryLe ((inputs.flatMap (collectInput fs ex)).dedup)

/-! ### Output formatting (`format_output`)

The literal wording of the instructional preamble and of the per-language
guideline blocks is out of scope (spec §1 treats it as configuration data),
so the string constants are stand-ins; every structural aspect of the
formatter is modelled. -/

/-- The instructional preamble (`BASE_SYSTEM_PROMPT`); wording elided. -/
def BASE_SYSTEM_PROMPT : String := "<base system prompt>"

/-- The `LANGUAGE_EXTENSIONS` table, in source (dict insertion) order. -/
def LANGUAGE_EXTENSIONS : List (String × List String) :=
  [("python", [".py"]),
   ("cpp", [".cpp", ".hpp", ".cc", ".cxx", ".h", ".hh"]),
   ("java", [".java"]),
   ("javascript", [".js", ".jsx"]),
   ("typescript", [".ts", ".tsx"]),
   ("csharp", [".cs"]),
   ("go", [".go"]),
   ("rust", [".rs"]),
   ("html", [".html", ".htm"]),
   ("css", [".css"]),
   ("shell", [".sh", ".bash"])]

/-- The `LANGUAGE_PROMPTS` table; guideline wording elided. -/
def LANGUAGE_PROMPTS : List (String × String) := [("cpp", "<cpp guidelines>")]

/-- Extension (with dot) of a basename, per `os.path.splitext`: everything
from the last dot, unless only dots precede it. -/
def extOfAux (bn : List Char) : List Char :=
  let rev := bn.reverse
  let tailChars := rev.takeWhile (fun c => c != '.')
  match rev.drop tailChars.length with
  | '.' :: pre => if pre.any (fun c => c != '.') then '.' :: tailChars.reverse else []
  | _ => []

def toLowerStr (s : String) : String := String.mk (s.data.map Char.toLower)

/-- `detect_language`: first language whose extension list contains the
lowercased extension, else `"unknown"`. -/
def detect_language (file_path : String) : String :=
  let ext := toLowerStr (String.mk (extOfAux (basenameStr file_path).data))
  match LANGUAGE_EXTENSIONS.find? (fun le => ext ∈ le.2) with
  | some le => le.1
  | none => "unknown"

example : detect_language "/a/b/foo.PY" = "python" := by decide
example : detect_language "/a/.bashrc" = "unknown" := by decide

/-- Stable insertion sort on strings (Python `sorted`). -/
def strLe (a b : String) : Prop := pathLe a b = true

instance : DecidableRel strLe := fun a b => by
  unfold strLe
  infer_instance

/-- `gather_language_prompts`: prompts of the detected languages, in sorted
language order, joined by newlines. -/
def gather_language_prompts (files : List (String × List String)) : String :=
  let detected := (files.map (fun f => detect_language f.1)).dedup
  joinSep "\n"
    ((List.insertionSort strLe detected).filterMap (fun lang => LANGUAGE_PROMPTS.lookup lang))

/-- `Path(fp).relative_to(base).as_posix()` as used by the formatter. -/
def relOf (fp : String) (base : List String) : String := relPosix base (parseAbs fp)

/-- Marker used in the structure listing for soft-excluded files. -/
def exMark : String := "[x] "

/-- The structure-building loop of `format_output` (source lines 301–314),
threading `file_index`: force-excluded files are skipped entirely,
soft-excluded files produce an `[x]` line, the rest get the next index and
join `included_files`. -/
def buildStruct (ex : Excluder) :
    Nat → List (String × List String) → List String × List (String × List String)
  | _, [] => ([], [])
  | i, (fp, base) :: rest =>
    if ex.is_forced_excluded fp then buildStruct ex i rest
    else if ex.is_excluded fp (some base) then
      let r := buildStruct ex i rest
      ((exMark ++ relOf fp base) :: r.1, r.2)
    else
      let r := buildStruct ex (i + 1) rest
      (("[" ++ toString i ++ "] " ++ relOf fp base) :: r.1, (fp, base) :: r.2)

/-- `included_files` under each setting of `include_structure`: the loop's
second component when the structure is built, else the direct filter of
source lines 317–320. -/
def includedFiles (ex : Excluder) (include_structure : Bool)
    (all_files : List (String × List String)) : List (String × List String) :=
  if include_structure then (buildStruct ex 1 all_files).2
  else
    all_files.filter (fun e => !(ex.is_forced_excluded e.1) && !(ex.is_excluded e.1 (some e.2)))

/-- One content block (source lines 338–345): heading with the 1-based
index and relative path, fenced content, and the inline
`__UNREADABLE__ (...)` marker when the read raises. -/
def contentBlock (fs : Node) (i : Nat) (fp : String) (base : List String) : String :=
  let rel := relOf fp base
  let content :=
    match readText fs fp with
    | .ok c => c
    | .error e => "__UNREADABLE__ (" ++ e ++ ")"
  "### [" ++ toString i ++ "] " ++ rel ++ "\n```\n" ++ content ++ "\n```\n"

/-- `enumerate(included_files, start=i)` mapped through `contentBlock`. -/
def contentBlocks (fs : Node) : Nat → List (String × List String) → List String
  | _, [] => []
  | i, (fp, base) :: rest => contentBlock fs i fp base :: contentBlocks fs (i + 1) rest

/-- The preamble parts (source lines 324–329). -/
def sysSection (isp : Bool) (included : List (String × List String)) : List String :=
  if isp then
    let lang := gather_language_prompts included
    if lang = "" then [BASE_SYSTEM_PROMPT] else [BASE_SYSTEM_PROMPT, lang]
  else []

/-- The `PROJECT STRUCTURE` parts (source lines 331–333). -/
def structSection (ex : Excluder) (istruct : Bool)
    (all_files : List (String × List String)) : List String :=
  let structure_lines := if istruct then (buildStruct ex 1 all_files).1 else []
  if istruct && !structure_lines.isEmpty then "PROJECT STRUCTURE:" :: structure_lines
  else []

/-- The file-contents parts (source lines 336–345). -/
def contentSection (fs : Node) (included : List (String × List String)) : List String :=
  if included.isEmpty then []
  else "\n--- FILE CONTENTS ---\n" :: contentBlocks fs 1 included

/-- The `parts` list assembled by `format_output`. -/
def formatParts (fs : Node) (ex : Excluder) (all_files : List (String × List String))
    (include_system_prompt include_structure : Bool) : List String :=
  sysSection include_system_prompt (includedFiles ex include_structure all_files) ++
    structSection ex include_structure all_files ++
    contentSection fs (includedFiles ex include_structure all_files)

/-- `format_output` proper: `"\n".join(parts)`. -/
def format_output (fs : Node) (ex : Excluder) (all_files : List (String × List String))
    (include_system_prompt include_structure : Bool) : String :=
  joinSep "\n" (formatParts fs ex all_files include_system_prompt include_structure)

/-- Specification-side description of the structure listing, following the
spec's words ("excluded-but-visible lines carry a fixed placeholder marker
instead of a number; indices are contiguous"): over the *visible* files (the
force-excluded ones already removed), a soft-excluded file yields the
placeholder line and consumes no index, any other file is numbered with the
next counter value. -/
def linesSpec (ex : Excluder) : Nat → List (String × List String) → List String
  | _, [] => []
  | i, (fp, base) :: rest =>
    if ex.is_excluded fp (some base) then (exMark ++ relOf fp base) :: linesSpec ex i rest
    else ("[" ++ toString i ++ "] " ++ relOf fp base) :: linesSpec ex (i + 1) rest

/-! ## Shared fixtures for concrete evaluations -/

/-- An `Excluder` with no rules at all (what `Excluder.__init__` builds from
all-empty rule lists, for any base paths). -/
def exNone : Excluder := ⟨[], [], [], [], [], [], []⟩

example : mkExcluder pyCompile [] [] [] [] [] [] [] = .ok exNone := by rfl

/-! ## Claim theorems -/

/-- C6: `gitignore_matches rel patterns` is true iff some non-negation
pattern ending in `/` is a prefix of `rel ++ "/"`, or some non-negation
pattern glob-matches the full relative path or its basename; patterns with a
leading `!` never contribute. -/
theorem claim6_gitignore_match_characterization (rel : String) (patterns : List String) :
    gitignore_matches rel patterns = true ↔
      ∃ p ∈ patterns, startsWithB p "!" = false ∧
        ((endsWithB p "/" = true ∧ startsWithB (rel ++ "/") p = true) ∨
          fnmatchB rel p = true ∨ fnmatchB (basenameStr rel) p = true) := by
  induction patterns with
  | nil => simp [gitignore_matches]
  | cons q rest ih =>
    rw [gitignore_matches]
    by_cases h1 : startsWithB q "!" <;>
      by_cases h2 : endsWithB q "/" && startsWithB (rel ++ "/") q <;>
        by_cases h3 : fnmatchB rel q || fnmatchB (basenameStr rel) q <;>
          simp_all [List.exists_mem_cons_iff]

/-- `Perm` lists agree on `any`. -/
theorem perm_any_eq {α : Type} {l l' : List α} (h : l.Perm l') (f : α → Bool) :
    l.any f = l'.any f := by
  induction h with
  | nil => rfl
  | cons x _ ih => simp [List.any_cons, ih]
  | swap x y l => simp [List.any_cons, Bool.or_left_comm]
  | trans _ _ ih1 ih2 => rw [ih1, ih2]

/-- `is_excluded` written as one boolean disjunction of its three tiers. -/
theorem is_excluded_eq_or (ex : Excluder) (path : String) (base : Option (List String)) :
    ex.is_excluded path base =
      (ex.exact_prefixes.any (fun pref =>
          normpath path == pref || startsWithB (normpath path) (pref ++ "/")) ||
        ex.regexes.any (fun rx => rx (normpath path)) ||
        ex.substrings.any (fun sub =>
          substrB sub (normpath path) ||
            substrB sub ((base.elim (normpath path)
              (fun b => relpathStr (normpath path) (render b)))) ||
            substrB sub (basenameStr (normpath path)))) := by
  unfold Excluder.is_excluded
  by_cases h1 : ex.exact_prefixes.any (fun pref =>
      normpath path == pref || startsWithB (normpath path) (pref ++ "/")) <;>
    by_cases h2 : ex.regexes.any (fun rx => rx (normpath path)) <;>
      simp [h1, h2]

/-- C7: `is_excluded` is true iff the path equals/lies under some soft exact
prefix, or matches some soft regex, or some soft substring occurs in the
normalized path, its base-relative form, or its basename — a pure
disjunction, so permuting the rule lists of any tier never changes the
result. -/
theorem claim7_is_excluded_pure_or (ex ex' : Excluder) (path : String)
    (base : Option (List String))
    (h1 : ex'.exact_prefixes.Perm ex.exact_prefixes)
    (h2 : ex'.regexes.Perm ex.regexes)
    (h3 : ex'.substrings.Perm ex.substrings) :
    (ex.is_excluded path base = true ↔
      ((∃ pref ∈ ex.exact_prefixes, normpath path = pref ∨
          startsWithB (normpath path) (pref ++ "/") = true) ∨
        (∃ rx ∈ ex.regexes, rx (normpath path) = true) ∨
        (∃ sub ∈ ex.substrings, substrB sub (normpath path) = true ∨
          substrB sub ((base.elim (normpath path)
            (fun b => relpathStr (normpath path) (render b)))) = true ∨
          substrB sub (basenameStr (normpath path)) = true))) ∧
    ex'.is_excluded path base = ex.is_excluded path base := by
  constructor
  · rw [is_excluded_eq_or]
    simp only [Bool.or_eq_true, List.any_eq_true, beq_iff_eq, or_assoc]
  · rw [is_excluded_eq_or, is_excluded_eq_or, perm_any_eq h1, perm_any_eq h2, perm_any_eq h3]

def exPerm : Excluder := ⟨[], [], ["s", "t"], [], [], [], ["/a", "/b"]⟩

def exPerm' : Excluder := ⟨[], [], ["t", "s"], [], [], [], ["/b", "/a"]⟩

/-- Witness for C7 at a concrete excluder pair with permuted rule lists. -/
theorem claim7_witness :
    exPerm'.is_excluded "/a/x" (some ["a"]) = exPerm.is_excluded "/a/x" (some ["a"]) :=
  (claim7_is_excluded_pure_or exPerm exPerm' "/a/x" (some ["a"])
    (by decide) (List.Perm.refl _) (by decide)).2

/-- `compileAll` succeeds iff every pattern compiles. -/
theorem compileAll_isOk (compile : String → Option (String → Bool)) (rs : List String) :
    (compileAll compile rs).isOk = rs.all (fun r => (compile r).isSome) := by
  induction rs with
  | nil => rfl
  | cons r rest ih =>
    rw [compileAll]
    cases hc : compile r with
    | none => simp [hc, Except.isOk, Except.toBool]
    | some f =>
      cases hrest : compileAll compile rest with
      | error e => rw [hrest] at ih; simp_all [Except.isOk, Except.toBool]
      | ok fs => rw [hrest] at ih; simp_all [Except.isOk, Except.toBool]

/-- C2 (amended): construction of the exclusion engine *aborts* on a
malformed regex — `re.compile` is called in `__init__` with no handler — so
`mkExcluder` succeeds exactly when every pattern of both regex tiers
compiles.  (Queries on a successfully constructed engine are total and
cannot abort: `is_excluded`/`is_forced_excluded` are plain `Bool`-valued
functions of the embedding, the `except re.error` around `search` being
unreachable for compiled patterns.) -/
theorem claim2_amended_construction_aborts (compile : String → Option (String → Bool))
    (bases : List (List String))
    (exact_paths regexes substrings forced_exclude forced_regexes forced_substrings :
      List String) :
    (mkExcluder compile bases exact_paths regexes substrings forced_exclude
        forced_regexes forced_substrings).isOk =
      (regexes.all (fun r => (compile r).isSome) &&
        forced_regexes.all (fun r => (compile r).isSome)) := by
  have e1 := compileAll_isOk compile regexes
  have e2 := compileAll_isOk compile forced_regexes
  unfold mkExcluder
  cases h1 : compileAll compile regexes with
  | error e => rw [h1] at e1; simp_all [Except.isOk, Except.toBool]
  | ok rs =>
    rw [h1] at e1
    cases h2 : compileAll compile forced_regexes with
    | error e => rw [h2] at e2; simp_all [Except.isOk, Except.toBool]
    | ok frs => rw [h2] at e2; simp_all [Except.isOk, Except.toBool]

/-- Counterexample to C2 as stated: with the malformed pattern `"("` in the
soft regex tier (CPython: `re.error: missing ), unterminated subpattern`),
constructing the exclusion engine aborts instead of degrading the pattern
to never-matching. -/
theorem claim2_counterexample :
    (mkExcluder pyCompile [] [] ["("] [] [] [] []).isOk = false := by rfl

/-- C3: a force-excluded file contributes nothing to the structure loop —
removing it from the candidate list changes neither the structure lines nor
the included files nor any assigned index; in particular a file matching
both a forced and a soft rule never appears in the listing (the forced check
runs first). -/
theorem claim3_forced_invisible_in_structure (ex : Excluder) (i : Nat)
    (files1 files2 : List (String × List String)) (fp : String) (b : List String)
    (h : ex.is_forced_excluded fp = true) :
    buildStruct ex i (files1 ++ (fp, b) :: files2) = buildStruct ex i (files1 ++ files2) := by
  induction files1 generalizing i with
  | nil => simp [buildStruct, h]
  | cons e rest ih =>
    obtain ⟨efp, eb⟩ := e
    simp only [List.cons_append, buildStruct]
    by_cases h1 : ex.is_forced_excluded efp <;>
      by_cases h2 : ex.is_excluded efp (some eb) <;> simp [h1, h2, ih]

def exBoth : Excluder := ⟨[], [], ["sec"], [], ["sec"], [], []⟩

/-- Witness for C3: `/a/sec.txt` matches both the forced and the soft
substring tier, and its presence leaves the structure output untouched. -/
theorem claim3_witness :
    exBoth.is_forced_excluded "/a/sec.txt" = true ∧
    exBoth.is_excluded "/a/sec.txt" (some ["a"]) = true ∧
    buildStruct exBoth 1 [("/a/f.py", ["a"]), ("/a/sec.txt", ["a"])] =
      buildStruct exBoth 1 [("/a/f.py", ["a"])] :=
  ⟨by decide, by decide,
    claim3_forced_invisible_in_structure exBoth 1 [("/a/f.py", ["a"])] [] "/a/sec.txt" ["a"]
      (by decide)⟩

/-- The included-files output of the structure loop is the plain filter of
the candidates by "neither force- nor soft-excluded". -/
theorem buildStruct_snd (ex : Excluder) (i : Nat) (files : List (String × List String)) :
    (buildStruct ex i files).2 =
      files.filter
        (fun e => !(ex.is_forced_excluded e.1) && !(ex.is_excluded e.1 (some e.2))) := by
  induction files generalizing i with
  | nil => rfl
  | cons e rest ih =>
    obtain ⟨fp, b⟩ := e
    simp only [buildStruct, List.filter]
    by_cases h1 : ex.is_forced_excluded fp <;>
      by_cases h2 : ex.is_excluded fp (some b) <;> simp [h1, h2, ih]

/-- The structure lines are `linesSpec` over the visible (non-forced)
candidates. -/
theorem buildStruct_fst (ex : Excluder) (i : Nat) (files : List (String × List String)) :
    (buildStruct ex i files).1 =
      linesSpec ex i (files.filter (fun e => !(ex.is_forced_excluded e.1))) := by
  induction files generalizing i with
  | nil => rfl
  | cons e rest ih =>
    obtain ⟨fp, b⟩ := e
    simp only [buildStruct, List.filter]
    by_cases h1 : ex.is_forced_excluded fp <;>
      by_cases h2 : ex.is_excluded fp (some b) <;> simp [h1, h2, ih, linesSpec]

/-- The `k`-th included file's numbered structure line, with index `i + k`,
is among the emitted lines. -/
theorem buildStruct_mem_line (ex : Excluder) (files : List (String × List String))
    (i k : Nat) (a : String × List String) (h : (buildStruct ex i files).2[k]? = some a) :
    ("[" ++ toString (i + k) ++ "] " ++ relOf a.1 a.2) ∈ (buildStruct ex i files).1 := by
  induction files generalizing i k with
  | nil => simp [buildStruct] at h
  | cons e rest ih =>
    obtain ⟨fp, b⟩ := e
    simp only [buildStruct] at h ⊢
    by_cases h1 : ex.is_forced_excluded fp
    · rw [if_pos h1] at h ⊢
      exact ih i k h
    · rw [if_neg h1] at h ⊢
      by_cases h2 : ex.is_excluded fp (some b)
      · rw [if_pos h2] at h ⊢
        exact List.mem_cons_of_mem _ (ih i k h)
      · rw [if_neg h2] at h ⊢
        cases k with
        | zero =>
          simp only [List.getElem?_cons_zero, Option.some.injEq] at h
          subst h
          simp
        | succ k' =>
          simp only [List.getElem?_cons_succ] at h
          have := ih (i + 1) k' h
          have harith : i + 1 + k' = i + (k' + 1) := by omega
          rw [harith] at this
          exact List.mem_cons_of_mem _ this

/-- `contentBlocks` places block `i + k` at position `k`. -/
theorem contentBlocks_getElem (fs : Node) (l : List (String × List String)) (i k : Nat)
    (a : String × List String) (h : l[k]? = some a) :
    (contentBlocks fs i l)[k]? = some (contentBlock fs (i + k) a.1 a.2) := by
  induction l generalizing i k with
  | nil => simp at h
  | cons e rest ih =>
    obtain ⟨fp, b⟩ := e
    cases k with
    | zero =>
      simp only [List.getElem?_cons_zero, Option.some.injEq] at h
      subst h
      simp [contentBlocks]
    | succ k' =>
      simp only [List.getElem?_cons_succ] at h
      have := ih (i + 1) k' h
      have harith : i + 1 + k' = i + (k' + 1) := by omega
      rw [harith] at this
      simpa [contentBlocks] using this

/-- C4: the structure loop numbers exactly the visible-with-content files
contiguously from 1 in candidate order — its included output is the filter
of candidates by "neither force- nor soft-excluded", its lines are
`linesSpec` (soft-excluded files get the fixed `[x]` marker and consume no
index, others get consecutive indices) — and the `k`-th included file both
carries structure index `1 + k` and heads its content block with the same
index `1 + k`. -/
theorem claim4_contiguous_indices (fs : Node) (ex : Excluder)
    (files : List (String × List String)) (k : Nat) (a : String × List String)
    (h : (buildStruct ex 1 files).2[k]? = some a) :
    (buildStruct ex 1 files).2 =
      files.filter
        (fun e => !(ex.is_forced_excluded e.1) && !(ex.is_excluded e.1 (some e.2))) ∧
    (buildStruct ex 1 files).1 =
      linesSpec ex 1 (files.filter (fun e => !(ex.is_forced_excluded e.1))) ∧
    ("[" ++ toString (1 + k) ++ "] " ++ relOf a.1 a.2) ∈ (buildStruct ex 1 files).1 ∧
    (contentBlocks fs 1 (buildStruct ex 1 files).2)[k]? =
      some (contentBlock fs (1 + k) a.1 a.2) :=
  ⟨buildStruct_snd ex 1 files, buildStruct_fst ex 1 files,
    buildStruct_mem_line ex files 1 k a h, contentBlocks_getElem fs _ 1 k a h⟩

def exSoft : Excluder := ⟨[], [], ["x.txt"], [], [], [], []⟩

def filesW : List (String × List String) := [("/a/x.txt", ["a"]), ("/a/f.py", ["a"])]

/-- Witness for C4: with `/a/x.txt` soft-excluded, `/a/f.py` is the 0-th
included file, carries index 1, and its content block is headed `### [1]`. -/
theorem claim4_witness :
    (buildStruct exSoft 1 filesW).2[0]? = some ("/a/f.py", ["a"]) ∧
    ("[" ++ toString (1 + 0) ++ "] " ++ relOf "/a/f.py" ["a"]) ∈
      (buildStruct exSoft 1 filesW).1 ∧
    (contentBlocks (Node.dir []) 1 (buildStruct exSoft 1 filesW).2)[0]? =
      some (contentBlock (Node.dir []) (1 + 0) "/a/f.py" ["a"]) :=
  ⟨by decide,
    (claim4_contiguous_indices (Node.dir []) exSoft filesW 0 ("/a/f.py", ["a"])
      (by decide)).2.2.1,
    (claim4_contiguous_indices (Node.dir []) exSoft filesW 0 ("/a/f.py", ["a"])
      (by decide)).2.2.2⟩

/-- C9: the sequence of files whose contents are emitted — files, order and
1-based indices — is the same whether the structure listing is enabled or
not: `included_files` computed by the structure loop equals the direct
filter used when the structure is disabled, and the two `formatParts`
outputs differ exactly by the `PROJECT STRUCTURE` section. -/
theorem claim9_structure_flag_only_adds_section (fs : Node) (ex : Excluder)
    (files : List (String × List String)) (isp : Bool) :
    includedFiles ex true files = includedFiles ex false files ∧
    formatParts fs ex files isp true =
      sysSection isp (includedFiles ex false files) ++ structSection ex true files ++
        contentSection fs (includedFiles ex false files) ∧
    formatParts fs ex files isp false =
      sysSection isp (includedFiles ex false files) ++
        contentSection fs (includedFiles ex false files) := by
  have hinc : includedFiles ex true files = includedFiles ex false files := by
    unfold includedFiles
    simp [buildStruct_snd]
  refine ⟨hinc, ?_, ?_⟩
  · unfold formatParts
    rw [hinc]
  · unfold formatParts
    have hs : structSection ex false files = [] := by simp [structSection]
    rw [hs]
    simp

/-- C8: a file that is included but whose read raises is recovered at the
point of use: its content block is still produced at its index, with the
inline `__UNREADABLE__ (...)` marker in place of the text, and that block
appears in the final parts list — the run continues and output is still
assembled. -/
theorem claim8_read_error_inline_marker (fs : Node) (ex : Excluder)
    (files : List (String × List String)) (isp istruct : Bool) (k : Nat)
    (fp : String) (b : List String) (e : String)
    (h1 : (includedFiles ex istruct files)[k]? = some (fp, b))
    (h2 : readText fs fp = .error e) :
    (contentBlocks fs 1 (includedFiles ex istruct files))[k]? =
      some ("### [" ++ toString (1 + k) ++ "] " ++ relOf fp b ++ "\n```\n" ++
        ("__UNREADABLE__ (" ++ e ++ ")") ++ "\n```\n") ∧
    ("### [" ++ toString (1 + k) ++ "] " ++ relOf fp b ++ "\n```\n" ++
        ("__UNREADABLE__ (" ++ e ++ ")") ++ "\n```\n") ∈
      formatParts fs ex files isp istruct := by
  have hb := contentBlocks_getElem fs (includedFiles ex istruct files) 1 k (fp, b) h1
  have hcb : contentBlock fs (1 + k) fp b =
      "### [" ++ toString (1 + k) ++ "] " ++ relOf fp b ++ "\n```\n" ++
        ("__UNREADABLE__ (" ++ e ++ ")") ++ "\n```\n" := by
    unfold contentBlock
    rw [h2]
  rw [hcb] at hb
  refine ⟨hb, ?_⟩
  have hmem : ("### [" ++ toString (1 + k) ++ "] " ++ relOf fp b ++ "\n```\n" ++
      ("__UNREADABLE__ (" ++ e ++ ")") ++ "\n```\n") ∈
      contentBlocks fs 1 (includedFiles ex istruct files) := by
    have hlt : k < (contentBlocks fs 1 (includedFiles ex istruct files)).length := by
      rcases List.getElem?_eq_some_iff.mp hb with ⟨hlen, -⟩
      exact hlen
    rcases List.getElem?_eq_some_iff.mp hb with ⟨hlen, hget⟩
    rw [← hget]
    exact List.getElem_mem hlen
  have hne : (includedFiles ex istruct files).isEmpty = false := by
    rcases List.getElem?_eq_some_iff.mp h1 with ⟨hlen, -⟩
    cases hfc : includedFiles ex istruct files with
    | nil => rw [hfc] at hlen; simp at hlen
    | cons x xs => simp
  unfold formatParts contentSection
  rw [hne]
  simp only [Bool.false_eq_true, if_false]
  refine List.mem_append_right _ ?_
  exact List.mem_cons_of_mem _ hmem

def fsBad : Node :=
  .dir [("a", .dir [("bad.py", .file (.error "PermissionError"))])]

/-- Witness for C8 at a concrete unreadable file. -/
theorem claim8_witness :
    ("### [" ++ toString (1 + 0) ++ "] " ++ relOf "/a/bad.py" ["a"] ++ "\n```\n" ++
        ("__UNREADABLE__ (" ++ "PermissionError" ++ ")") ++ "\n```\n") ∈
      formatParts fsBad exNone [("/a/bad.py", ["a"])] true true :=
  (claim8_read_error_inline_marker fsBad exNone [("/a/bad.py", ["a"])] true true 0
    "/a/bad.py" ["a"] "PermissionError" (by decide) (by rfl)).2

/-- A kept file of the walk is the current directory plus one name. -/
theorem keepFile_shape {patterns : List String} {base p : List String} {name : String}
    {fp : List String} (h : keepFile patterns base p name = some fp) : fp = p ++ [name] := by
  unfold keepFile at h
  by_cases h1 : gitignore_matches (relPosix base (p ++ [name])) patterns
  · simp [h1] at h
  · by_cases h2 : substrB "/.git/" (render (p ++ [name]))
    · simp [h1, h2] at h
    · simp [h1, h2] at h
      exact h.symm

/-- Every path collected by the walk lies strictly below the walk root. -/
theorem walkFuel_under (ex : Excluder) (patterns : List String) (base : List String) :
    ∀ (fuel : Nat) (p : List String) (node : Node) (q : List String),
      q ∈ walkFuel ex patterns base fuel p node → p <+: q ∧ p.length < q.length := by
  intro fuel
  induction fuel with
  | zero => intro p node q hq; simp [walkFuel] at hq
  | succ fuel ih =>
    intro p node q hq
    cases node with
    | file t => simp [walkFuel] at hq
    | dir entries =>
      simp only [walkFuel] at hq
      rcases List.mem_append.mp hq with hk | hr
      · rcases List.mem_filterMap.mp hk with ⟨e, -, hke⟩
        have := keepFile_shape hke
        subst this
        refine ⟨List.prefix_append p [e.1], ?_⟩
        simp
      · rcases List.mem_flatMap.mp hr with ⟨en, -, hqin⟩
        rcases ih (p ++ [en.1]) en.2 q hqin with ⟨hpref, hlen⟩
        refine ⟨List.IsPrefix.trans (List.prefix_append p [en.1]) hpref, ?_⟩
        rw [List.length_append] at hlen
        simp at hlen
        omega

/-- If a child directory `d` of `p` fails the prune test, the walk from `p`
collects nothing strictly below `p ++ [d]`. -/
theorem walkFuel_pruned (ex : Excluder) (patterns : List String) (base : List String)
    (d : String) :
    ∀ (fuel : Nat) (p : List String) (node : Node) (q : List String),
      pruneCond ex patterns base p d = true →
      q ∈ walkFuel ex patterns base fuel p node → (p ++ [d]) <+: q → q = p ++ [d] := by
  intro fuel
  induction fuel with
  | zero => intro p node q _ hq; simp [walkFuel] at hq
  | succ fuel ih =>
    intro p node q hprune hq hpref
    cases node with
    | file t => simp [walkFuel] at hq
    | dir entries =>
      simp only [walkFuel] at hq
      rcases List.mem_append.mp hq with hk | hr
      · rcases List.mem_filterMap.mp hk with ⟨e, -, hke⟩
        have hqe := keepFile_shape hke
        subst hqe
        have hlen : (p ++ [d]).length = (p ++ [e.1]).length := by simp
        exact (List.IsPrefix.eq_of_length hpref hlen).symm
      · rcases List.mem_flatMap.mp hr with ⟨en, henf, hqin⟩
        by_cases hde : en.1 = d
        · have hf := List.of_mem_filter henf
          rw [hde] at hf
          rw [hprune] at hf
          simp at hf
        · rcases walkFuel_under ex patterns base fuel (p ++ [en.1]) en.2 q hqin with ⟨hpref2, -⟩
          have hlen : (p ++ [d]).length ≤ (p ++ [en.1]).length := by simp
          have hpp : (p ++ [d]) <+: (p ++ [en.1]) :=
            List.prefix_of_prefix_length_le hpref hpref2 hlen
          have heq : (p ++ [d]) = (p ++ [en.1]) :=
            List.IsPrefix.eq_of_length hpp (by simp)
          have : d = en.1 := by
            have := List.append_cancel_left heq
            simpa using this
          exact absurd this.symm hde

/-- C5 (amended): within the traversal of one input path, a pruned child
directory's subtree contributes nothing — no collected path of that walk
lies strictly under the pruned directory.  (The original claim fails for
the whole `collect_files` result because a *different* input path can
independently reach files below the pruned directory; see the
counterexample.) -/
theorem claim5_amended_pruned_subtree_empty (ex : Excluder) (patterns : List String)
    (base p : List String) (node : Node) (d : String) (q : List String)
    (hprune : pruneCond ex patterns base p d = true)
    (hq : q ∈ walkFiles ex patterns base p node) :
    ¬((p ++ [d]) <+: q ∧ (p ++ [d]).length < q.length) := by
  rintro ⟨hpref, hlt⟩
  have := walkFuel_pruned ex patterns base d (nodeSize node) p node q hprune hq hpref
  rw [this] at hlt
  omega

def nodeA : Node :=
  .dir [("g.txt", .file (.ok "g")), ("sub", .dir [("f.txt", .file (.ok "f"))])]

def fsC5 : Node := .dir [("a", nodeA)]

def exC5 : Excluder := ⟨[], [], [], [], [], [], ["/a/sub"]⟩

/-- Witness for C5 (amended) at a concrete pruned directory. -/
theorem claim5_witness :
    pruneCond exC5 (inputPatterns fsC5 ["a"]) (inputBase fsC5 ["a"]) ["a"] "sub" = true ∧
    ["a", "g.txt"] ∈ walkFiles exC5 (inputPatterns fsC5 ["a"]) (inputBase fsC5 ["a"]) ["a"] nodeA ∧
    ¬((["a"] ++ ["sub"]) <+: ["a", "g.txt"] ∧ (["a"] ++ ["sub"]).length < ["a", "g.txt"].length) :=
  ⟨by decide, by decide,
    claim5_amended_pruned_subtree_empty exC5 (inputPatterns fsC5 ["a"]) (inputBase fsC5 ["a"])
      ["a"] nodeA "sub" ["a", "g.txt"] (by decide) (by decide)⟩

/-- Counterexample to C5 as stated: with the soft rule `/a/sub`, the
directory `sub` is pruned while walking the input `/a` (its prune condition
holds with that walk's base and patterns), yet `/a/sub/f.txt` — a file
matching no rule — still appears in the `collect_files` output because the
second input path `/a/sub/f.txt` reaches it independently. -/
theorem claim5_counterexample :
    pruneCond exC5 (inputPatterns fsC5 ["a"]) (inputBase fsC5 ["a"]) ["a"] "sub" = true ∧
    "/a/sub/f.txt" ∈ (collect_files fsC5 exC5 [["a"], ["a", "sub", "f.txt"]]).map Prod.fst := by
  exact ⟨by decide, by decide⟩

/-- C10: for a single-file input, `collect_files` applies only the
gitignore test — the `/.git/`-segment skip exists only in the directory
walk — so the result is exactly the one candidate (path with its base) when
gitignore does not match, independent of the excluder. -/
theorem claim10_single_file_input (fs : Node) (ex : Excluder) (input : List String)
    (h : isFileB fs input = true) :
    collect_files fs ex [input] =
      if gitignore_matches (relPosix (inputBase fs input) input) (inputPatterns fs input)
      then [] else [(render input, inputBase fs input)] := by
  unfold collect_files
  have hf : ([input].flatMap (collectInput fs ex)) = collectInput fs ex input := by simp
  rw [hf]
  unfold collectInput
  rw [if_pos h]
  by_cases hg :
      gitignore_matches (relPosix (inputBase fs input) input) (inputPatterns fs input)
  · rw [if_pos hg]
    rfl
  · rw [if_neg hg]
    rfl

def fsGit : Node :=
  .dir [("repo", .dir [(".git", .dir [("config", .file (.ok "cfg"))])])]

/-- Witness for C10: the single-file input `/repo/.git/config` contains a
`.git` segment, matches no gitignore pattern, and still becomes a candidate
(with the git root `/repo` as base). -/
theorem claim10_witness :
    isFileB fsGit ["repo", ".git", "config"] = true ∧
    substrB "/.git/" "/repo/.git/config" = true ∧
    collect_files fsGit exNone [["repo", ".git", "config"]] =
      [("/repo/.git/config", ["repo"])] := by
  refine ⟨by decide, by decide, ?_⟩
  rw [claim10_single_file_input fsGit exNone ["repo", ".git", "config"] (by decide)]
  decide

/-- Cons unfolding of lexicographic string order. -/
theorem listCharLe_cons_iff (x y : Char) (xs ys : List Char) :
    listCharLe (x :: xs) (y :: ys) = true ↔ x < y ∨ (x = y ∧ listCharLe xs ys = true) := by
  simp only [listCharLe]
  by_cases h1 : x < y
  · simp [h1]
  · by_cases h2 : x = y
    · subst h2
      simp [h1]
    · have h2' : (x == y) = false := by simp [h2]
      simp [h1, h2, h2']

theorem listCharLe_total : ∀ a b : List Char, listCharLe a b = true ∨ listCharLe b a = true := by
  intro a
  induction a with
  | nil => intro b; left; rfl
  | cons x xs ih =>
    intro b
    cases b with
    | nil => right; rfl
    | cons y ys =>
      rcases lt_trichotomy x y with h | h | h
      · left; rw [listCharLe_cons_iff]; exact Or.inl h
      · subst h
        rcases ih ys with h' | h'
        · left; rw [listCharLe_cons_iff]; exact Or.inr ⟨rfl, h'⟩
        · right; rw [listCharLe_cons_iff]; exact Or.inr ⟨rfl, h'⟩
      · right; rw [listCharLe_cons_iff]; exact Or.inl h

theorem listCharLe_trans :
    ∀ a b c : List Char, listCharLe a b = true → listCharLe b c = true →
      listCharLe a c = true := by
  intro a
  induction a with
  | nil => intro b c _ _; rfl
  | cons x xs ih =>
    intro b c hab hbc
    cases b with
    | nil => simp [listCharLe] at hab
    | cons y ys =>
      cases c with
      | nil => simp [listCharLe] at hbc
      | cons z zs =>
        rw [listCharLe_cons_iff] at hab hbc ⊢
        rcases hab with h1 | ⟨heq1, h1⟩
        · rcases hbc with h2 | ⟨heq2, h2⟩
          · exact Or.inl (lt_trans h1 h2)
          · exact Or.inl (heq2 ▸ h1)
        · subst heq1
          rcases hbc with h2 | ⟨heq2, h2⟩
          · exact Or.inl h2
          · subst heq2
            exact Or.inr ⟨rfl, ih ys zs h1 h2⟩

theorem entryLe_total : ∀ a b : String × List String, entryLe a b ∨ entryLe b a := by
  intro a b
  exact listCharLe_total a.1.data b.1.data

theorem entryLe_trans :
    ∀ a b c : String × List String, entryLe a b → entryLe b c → entryLe a c := by
  intro a b c hab hbc
  exact listCharLe_trans a.1.data b.1.data c.1.data hab hbc

/-- C1 (amended): the `collect_files` output has no two *identical
(path, base) entries* — the `set` dedups pairs, not paths — and is sorted
ascending (non-strictly) by the absolute-path string.  Two entries *can*
share the same absolute path with different bases when inputs resolve to
different git roots; see the counterexample. -/
theorem claim1_amended_nodup_pairs_sorted (fs : Node) (ex : Excluder)
    (inputs : List (List String)) :
    (collect_files fs ex inputs).Nodup ∧
      List.Sorted entryLe (collect_files fs ex inputs) := by
  constructor
  · exact ((List.perm_insertionSort entryLe
      ((inputs.flatMap (collectInput fs ex)).dedup)).nodup_iff).mpr (List.nodup_dedup _)
  · exact @List.sorted_insertionSort _ entryLe _ ⟨entryLe_total⟩ ⟨entryLe_trans⟩ _

def fsNested : Node :=
  .dir [("repo", .dir [(".git", .dir []),
                       ("sub", .dir [(".git", .dir []),
                                     ("b.py", .file (.ok "x"))])])]

/-- Counterexample to C1 as stated: with nested git repositories
`/repo/.git` and `/repo/sub/.git` and the two inputs `/repo` and
`/repo/sub`, the same file `/repo/sub/b.py` is collected once with base
`/repo` and once with base `/repo/sub` — two entries with the same absolute
file path survive the `set` dedup, which keys on the pair. -/
theorem claim1_counterexample :
    (collect_files fsNested exNone [["repo"], ["repo", "sub"]]).map Prod.fst =
        ["/repo/sub/b.py", "/repo/sub/b.py"] ∧
      ¬ List.Pairwise (fun a b => a.1 ≠ b.1)
        (collect_files fsNested exNone [["repo"], ["repo", "sub"]]) := by
  exact ⟨by decide, by decide⟩

end Code2LLM
